import Mathlib

/-!
# Verification of the LivePing adaptive workflow-guard subsystem

Shallow embedding of the core logic of `src/scripts/eventBot.ts`,
`src/scripts/helpers/gemini.ts`, `helpers/time.ts` (`hasStartTimePassed`),
and `helpers/common.ts` (`performLogin`), together with proofs of the
frozen claims about them.

JavaScript strings are modelled as `List Char` (`JSStr`).  The JavaScript
built-ins used by the code (`String.prototype.toLowerCase`, `trim`,
`startsWith`, `new URL`, `JSON.parse`, `Number`, `new Date`) are modelled
by executable Lean functions over `JSStr`; each model notes the subset of
the built-in behaviour it covers.
-/

/-- JavaScript strings, modelled as lists of characters. -/
abbrev JSStr := List Char

/-- Model of `String.prototype.toLowerCase` (ASCII fragment: the code
points affected by the claims are ASCII; `Char.toLower` lowercases exactly
the basic-latin letters). -/
def jsToLowerStr (s : JSStr) : JSStr := s.map Char.toLower

/-- Model of `s.startsWith(p)`. -/
def jsStartsWith (s p : JSStr) : Bool := p.isPrefixOf s

/-- JavaScript whitespace for `trim`, `Number` coercion and the regex
class `\s` (ASCII fragment plus NBSP and BOM; the further Unicode
space separators are not modelled). -/
def isJsWs (c : Char) : Bool :=
  c = ' ' || c = '\t' || c = '\n' || c = '\r' ||
  c = '\x0b' || c = '\x0c' || c = '\u00A0' || c = '\uFEFF'

/-- Model of `String.prototype.trim`. -/
def jsTrim (s : JSStr) : JSStr :=
  ((s.dropWhile isJsWs).reverse.dropWhile isJsWs).reverse

/-- Does `sub` occur as a contiguous run inside `s`?  Model of
`String.prototype.includes`. -/
def jsIncludes (s sub : JSStr) : Bool :=
  match s with
  | [] => sub.isPrefixOf []
  | _ :: rest => sub.isPrefixOf s || jsIncludes rest sub

/-- Shorthand for string literals as `JSStr`. -/
def str (s : String) : JSStr := s.data

/-! ## Model of the WHATWG `new URL` constructor

The model covers absolute hierarchical URLs of the shape
`scheme://host[:port][/path][?query|#fragment...]`.  Scheme and host are
lowercased as the WHATWG parser does (the model also lowercases the rest
of the URL; every consumer in the embedded code immediately lowercases
whatever component it reads, so this is not observable).  Special
schemes (`http`, `https`, `ws`, `wss`, `ftp`, `file`) get the WHATWG
treatment of an always-nonempty pathname (`/` when no path is written),
while non-special schemes keep an empty pathname for authority-only
URLs; the `origin` property is the serialized `scheme://host[:port]`
tuple for `http`/`https`/`ws`/`wss`/`ftp` and the opaque string `"null"`
for `file` and every non-special scheme.  Not modelled: percent-encoding,
dot-segment path normalisation, IPv6 hosts, opaque-path URLs
(`mailto:`), and default-port elision (origins and hrefs keep the
written port consistently, so prefix matching between them is
unaffected).  Parsing fails (`none`, i.e. `new URL` throws) on inputs
outside this shape. -/

/-- The WHATWG special schemes. -/
def specialScheme (s : JSStr) : Bool :=
  s = str "http" || s = str "https" || s = str "ws" || s = str "wss" ||
  s = str "ftp" || s = str "file"

/-- Schemes whose `origin` is a tuple origin (all special schemes except
`file`, whose origin is opaque). -/
def tupleOriginScheme (s : JSStr) : Bool :=
  s = str "http" || s = str "https" || s = str "ws" || s = str "wss" || s = str "ftp"

/-- A parsed URL. -/
structure URLModel where
  scheme : JSStr
  host : JSStr
  port : Option JSStr
  pathname : JSStr
  suffix : JSStr
  deriving Repr, DecidableEq

/-- Characters allowed in a scheme after the first (RFC 3986 / WHATWG). -/
def isSchemeChar (c : Char) : Bool :=
  c.isAlpha || c.isDigit || c = '+' || c = '-' || c = '.'

/-- A scheme is nonempty, begins with a letter and continues with
scheme characters. -/
def validScheme (s : JSStr) : Bool :=
  match s with
  | [] => false
  | c :: rest => c.isAlpha && rest.all isSchemeChar

/-- Split a string at the first occurrence of `://`. -/
def splitScheme : JSStr → Option (JSStr × JSStr)
  | [] => none
  | ':' :: '/' :: '/' :: rest => some ([], rest)
  | c :: rest => (splitScheme rest).map (fun p => (c :: p.1, p.2))

/-- Characters ending the host-port run. -/
def isHostEnd (c : Char) : Bool := c = '/' || c = '?' || c = '#'

/-- Characters ending the pathname run. -/
def isPathEnd (c : Char) : Bool := c = '?' || c = '#'

/-- Assemble pathname and suffix from the part after the host: with no
written path, special schemes get pathname `/` and non-special schemes
get an empty pathname. -/
def mkURL (scheme host : JSStr) (port : Option JSStr) (rest2 : JSStr) : URLModel :=
  match rest2 with
  | '/' :: r =>
    { scheme := scheme, host := host, port := port
      pathname := '/' :: r.takeWhile (fun c => !isPathEnd c)
      suffix := r.dropWhile (fun c => !isPathEnd c) }
  | _ =>
    { scheme := scheme, host := host, port := port
      pathname := if specialScheme scheme then ['/'] else []
      suffix := rest2 }

/-- Core structural parser (no lowercasing). -/
def parseCore (s : JSStr) : Option URLModel :=
  match splitScheme s with
  | none => none
  | some (scheme, rest) =>
    if validScheme scheme then
      let hostport := rest.takeWhile (fun c => !isHostEnd c)
      let rest2 := rest.drop hostport.length
      let host := hostport.takeWhile (fun c => c ≠ ':')
      if host = [] then none
      else if host.length = hostport.length then
        some (mkURL scheme host none rest2)
      else
        let portRaw := hostport.drop (host.length + 1)
        if portRaw = [] then some (mkURL scheme host none rest2)
        else if portRaw.all Char.isDigit then some (mkURL scheme host (some portRaw) rest2)
        else none
    else none

/-- Model of `new URL(s)`: the WHATWG parser lowercases scheme and host;
the model lowercases the input up front (see the section comment). -/
def parseURL (s : JSStr) : Option URLModel := parseCore (jsToLowerStr s)

/-- The serialized `scheme://host[:port]` part of a parsed URL. -/
def serializeAuthority (u : URLModel) : JSStr :=
  u.scheme ++ [':', '/', '/'] ++ u.host ++ (match u.port with
    | some p => ':' :: p
    | none => [])

/-- The `origin` property of a parsed URL: the serialized tuple for
`http`/`https`/`ws`/`wss`/`ftp`, the opaque `"null"` otherwise. -/
def originStr (u : URLModel) : JSStr :=
  if tupleOriginScheme u.scheme then serializeAuthority u else str "null"

/-- The `href` property of a parsed URL. -/
def hrefStr (u : URLModel) : JSStr := serializeAuthority u ++ u.pathname ++ u.suffix

/-! ## `src/scripts/eventBot.ts` -/

/-- The fixed path-segment catalog of `buildWorkflowAllowlist`
(`eventBot.ts` lines 20-35). -/
def pathSegments : List JSStr :=
  [str "/login", str "/signin", str "/auth", str "/account", str "/seat",
   str "/seats", str "/ticket", str "/tickets", str "/cart", str "/checkout",
   str "/payment", str "/confirm", str "/order", str "/captcha"]

/-- First-occurrence deduplication, the behaviour of
`Array.from(new Set(list))`. -/
def dedupFirstAux (seen : List JSStr) : List JSStr → List JSStr
  | [] => []
  | x :: xs => if x ∈ seen then dedupFirstAux seen xs else x :: dedupFirstAux (x :: seen) xs

/-- `Array.from(new Set(list))`. -/
def dedupFirst (l : List JSStr) : List JSStr := dedupFirstAux [] l

/-- `buildWorkflowAllowlist` (`eventBot.ts` lines 11-48).  `origin` is the
empty string when `new URL(targetUrl)` throws, mirroring the `try`/`catch`;
the `if (origin)` test is JavaScript string truthiness (nonempty). -/
def buildWorkflowAllowlist (targetUrl : JSStr) : List JSStr :=
  let normalizedTarget := jsToLowerStr targetUrl
  let origin : JSStr :=
    match parseURL targetUrl with
    | some u => jsToLowerStr (originStr u)
    | none => []
  dedupFirst
    ([normalizedTarget] ++
      (if origin ≠ [] then origin :: pathSegments.map (fun seg => origin ++ seg) else []) ++
      pathSegments)

/-- `deriveAllowedOrigins` (`eventBot.ts` lines 50-61): entries starting
with `http` are parsed, mapped to their lowercased origin, and entries
whose parse throws are dropped. -/
def deriveAllowedOrigins (allowlist : List JSStr) : List JSStr :=
  (allowlist.filter (fun entry => jsStartsWith entry (str "http"))).filterMap
    (fun entry => (parseURL entry).map (fun u => jsToLowerStr (originStr u)))

/-- `isAllowedWorkflowUrl` (`eventBot.ts` lines 63-97). -/
def isAllowedWorkflowUrl (url : JSStr) (allowlist allowedOrigins : List JSStr) : Bool :=
  let current := jsToLowerStr url
  match parseURL current with
  | some parsed =>
    let parsedOrigin := jsToLowerStr (originStr parsed)
    let parsedPath := jsToLowerStr parsed.pathname
    let parsedHref := jsToLowerStr (hrefStr parsed)
    allowlist.any (fun allowed =>
      let normalizedAllowed := jsToLowerStr allowed
      if jsStartsWith normalizedAllowed (str "http") then
        match parseURL normalizedAllowed with
        | some allowedUrl =>
          let allowedOrigin := jsToLowerStr (originStr allowedUrl)
          let allowedPath := if allowedUrl.pathname = [] then str "/" else allowedUrl.pathname
          if parsedOrigin ≠ allowedOrigin then false
          else jsStartsWith parsedPath (jsToLowerStr allowedPath)
        | none => jsStartsWith parsedHref normalizedAllowed
      else if jsStartsWith normalizedAllowed (str "/") then
        if allowedOrigins ≠ [] && !(allowedOrigins.contains parsedOrigin) then false
        else jsStartsWith parsedPath normalizedAllowed
      else jsStartsWith parsedHref normalizedAllowed)
  | none => allowlist.any (fun allowed => jsStartsWith current (jsToLowerStr allowed))

/-! ## `src/scripts/helpers/gemini.ts`

JSON values produced by `JSON.parse` and the model of the parser itself.
JSON numbers are modelled as exact rationals (`ℚ`); the model of
`JSON.parse` covers the strict JSON grammar, with `\uXXXX` escapes
restricted to valid Unicode scalar values (lone surrogates make the model
parser fail). -/

/-- A JavaScript value produced by `JSON.parse`. -/
inductive Json where
  | null
  | bool (b : Bool)
  | num (q : ℚ)
  | str (s : JSStr)
  | arr (elems : List Json)
  | obj (fields : List (JSStr × Json))
  deriving Repr

/-- JSON insignificant whitespace. -/
def isJsonWs (c : Char) : Bool := c = ' ' || c = '\t' || c = '\n' || c = '\r'

/-- Drop JSON whitespace. -/
def jsonSkipWs (s : JSStr) : JSStr := s.dropWhile isJsonWs

/-- Value of one hexadecimal digit. -/
def hexDigitVal (c : Char) : Option Nat :=
  if c.isDigit then some (c.toNat - 48)
  else if 97 ≤ c.toNat ∧ c.toNat ≤ 102 then some (c.toNat - 87)
  else if 65 ≤ c.toNat ∧ c.toNat ≤ 70 then some (c.toNat - 55)
  else none

/-- Numeric value of a run of decimal digits. -/
def digitsToNat (l : JSStr) : Nat := l.foldl (fun a c => a * 10 + (c.toNat - 48)) 0

/-- Parse the body of a JSON string (after the opening quote), returning
the decoded characters and the remainder after the closing quote. -/
def parseJsonString : Nat → JSStr → Option (JSStr × JSStr)
  | 0, _ => none
  | _ + 1, [] => none
  | _ + 1, '"' :: r => some ([], r)
  | fuel + 1, '\\' :: e :: r =>
    match e with
    | '"' => (parseJsonString fuel r).map (fun p => ('"' :: p.1, p.2))
    | '\\' => (parseJsonString fuel r).map (fun p => ('\\' :: p.1, p.2))
    | '/' => (parseJsonString fuel r).map (fun p => ('/' :: p.1, p.2))
    | 'b' => (parseJsonString fuel r).map (fun p => ('\x08' :: p.1, p.2))
    | 'f' => (parseJsonString fuel r).map (fun p => ('\x0c' :: p.1, p.2))
    | 'n' => (parseJsonString fuel r).map (fun p => ('\n' :: p.1, p.2))
    | 'r' => (parseJsonString fuel r).map (fun p => ('\r' :: p.1, p.2))
    | 't' => (parseJsonString fuel r).map (fun p => ('\t' :: p.1, p.2))
    | 'u' =>
      match r with
      | h1 :: h2 :: h3 :: h4 :: r2 =>
        match hexDigitVal h1, hexDigitVal h2, hexDigitVal h3, hexDigitVal h4 with
        | some v1, some v2, some v3, some v4 =>
          let n := ((v1 * 16 + v2) * 16 + v3) * 16 + v4
          if n.isValidChar then
            (parseJsonString fuel r2).map (fun p => (Char.ofNat n :: p.1, p.2))
          else none
        | _, _, _, _ => none
      | _ => none
    | _ => none
  | fuel + 1, c :: r =>
    if c.toNat < 32 then none
    else (parseJsonString fuel r).map (fun p => (c :: p.1, p.2))

/-- Parse a JSON number (strict grammar `-?int frac? exp?`). -/
def parseJsonNumber (s : JSStr) : Option (ℚ × JSStr) :=
  let (neg, s1) : Bool × JSStr :=
    match s with
    | '-' :: r => (true, r)
    | _ => (false, s)
  let intPart : JSStr :=
    match s1 with
    | '0' :: _ => ['0']
    | _ => s1.takeWhile Char.isDigit
  if intPart = [] then none
  else
    let s2 := s1.drop intPart.length
    let (fracPart, s3) : JSStr × JSStr :=
      match s2 with
      | '.' :: r => (r.takeWhile Char.isDigit, r.dropWhile Char.isDigit)
      | _ => ([], s2)
    if s2 ≠ s3 ∧ fracPart = [] then none
    else
      let parseExp : Option (Bool × JSStr × JSStr) :=
        match s3 with
        | 'e' :: '+' :: r => some (false, r.takeWhile Char.isDigit, r.dropWhile Char.isDigit)
        | 'e' :: '-' :: r => some (true, r.takeWhile Char.isDigit, r.dropWhile Char.isDigit)
        | 'e' :: r => some (false, r.takeWhile Char.isDigit, r.dropWhile Char.isDigit)
        | 'E' :: '+' :: r => some (false, r.takeWhile Char.isDigit, r.dropWhile Char.isDigit)
        | 'E' :: '-' :: r => some (true, r.takeWhile Char.isDigit, r.dropWhile Char.isDigit)
        | 'E' :: r => some (false, r.takeWhile Char.isDigit, r.dropWhile Char.isDigit)
        | _ => none
      let base : ℚ :=
        (digitsToNat intPart : ℚ) + (digitsToNat fracPart : ℚ) / ((10 : ℚ) ^ fracPart.length)
      let signed : ℚ := if neg then -base else base
      match parseExp with
      | none => some (signed, s3)
      | some (eneg, edigits, s4) =>
        if edigits = [] then none
        else
          let scaled : ℚ :=
            if eneg then signed / ((10 : ℚ) ^ digitsToNat edigits)
            else signed * ((10 : ℚ) ^ digitsToNat edigits)
          some (scaled, s4)

mutual

/-- Parse one JSON value; returns the value and the unconsumed remainder. -/
def parseJsonValue : Nat → JSStr → Option (Json × JSStr)
  | 0, _ => none
  | fuel + 1, s =>
    match jsonSkipWs s with
    | 'n' :: 'u' :: 'l' :: 'l' :: r => some (.null, r)
    | 't' :: 'r' :: 'u' :: 'e' :: r => some (.bool true, r)
    | 'f' :: 'a' :: 'l' :: 's' :: 'e' :: r => some (.bool false, r)
    | '"' :: r => (parseJsonString (r.length + 1) r).map (fun p => (.str p.1, p.2))
    | '[' :: r =>
      (match jsonSkipWs r with
       | ']' :: r2 => some (.arr [], r2)
       | _ => (parseJsonElems fuel r).map (fun p => (.arr p.1, p.2)))
    | '\x7b' :: r =>
      (match jsonSkipWs r with
       | '\x7d' :: r2 => some (.obj [], r2)
       | _ => (parseJsonMembers fuel r).map (fun p => (.obj p.1, p.2)))
    | other => (parseJsonNumber other).map (fun p => (.num p.1, p.2))

/-- Parse a nonempty comma-separated list of values up to `]`. -/
def parseJsonElems : Nat → JSStr → Option (List Json × JSStr)
  | 0, _ => none
  | fuel + 1, s =>
    match parseJsonValue fuel s with
    | none => none
    | some (v, rest) =>
      match jsonSkipWs rest with
      | ',' :: r2 => (parseJsonElems fuel r2).map (fun p => (v :: p.1, p.2))
      | ']' :: r2 => some ([v], r2)
      | _ => none

/-- Parse a nonempty comma-separated list of `"key": value` members up
to the closing brace. -/
def parseJsonMembers : Nat → JSStr → Option (List (JSStr × Json) × JSStr)
  | 0, _ => none
  | fuel + 1, s =>
    match jsonSkipWs s with
    | '"' :: r =>
      match parseJsonString (r.length + 1) r with
      | none => none
      | some (key, rest) =>
        match jsonSkipWs rest with
        | ':' :: r2 =>
          match parseJsonValue fuel r2 with
          | none => none
          | some (v, rest2) =>
            match jsonSkipWs rest2 with
            | ',' :: r3 => (parseJsonMembers fuel r3).map (fun p => ((key, v) :: p.1, p.2))
            | '\x7d' :: r3 => some ([(key, v)], r3)
            | _ => none
        | _ => none
    | _ => none

end

/-- Model of `JSON.parse` (strict grammar; `none` models a thrown
`SyntaxError`). -/
def jsonParse (s : JSStr) : Option Json :=
  match parseJsonValue (s.length + 1) s with
  | some (v, rest) => if jsonSkipWs rest = [] then some v else none
  | none => none

/-- Property lookup on an object built by `JSON.parse`: with duplicate
keys the later member wins. -/
def jsonLookup (fields : List (JSStr × Json)) (key : JSStr) : Option Json :=
  (fields.reverse.find? (fun f => f.1 = key)).map (fun f => f.2)

/-- Property access `j[key]`.  `none` models a thrown `TypeError`
(reading a property of `null`); `some none` is `undefined`; `some (some v)`
is a present value. -/
def getProp : Json → JSStr → Option (Option Json)
  | .null, _ => none
  | .obj fields, key => some (jsonLookup fields key)
  | _, _ => some none

/-- JavaScript truthiness of a `JSON.parse` value. -/
def jsTruthy : Json → Bool
  | .null => false
  | .bool b => b
  | .num q => decide (q ≠ 0)
  | .str s => decide (s ≠ [])
  | .arr _ => true
  | .obj _ => true

/-- `MAX_SELECTOR_LENGTH` (`gemini.ts` line 188). -/
def MAX_SELECTOR_LENGTH : Nat := 500

/-- `MAX_VALUE_LENGTH` (`gemini.ts` line 189). -/
def MAX_VALUE_LENGTH : Nat := 500

/-- `isValidInstruction` (`gemini.ts` lines 223-234).  The result is
`none` when the JavaScript function would throw (property access on a
`null` candidate), otherwise `some` of the boolean it returns.  Note the
length and newline checks apply to the *trimmed* selector. -/
def isValidInstruction (j : Json) : Option Bool :=
  match getProp j (str "selector") with
  | none => none
  | some selProp =>
    let selector : JSStr :=
      match selProp with
      | some (.str s) => jsTrim s
      | _ => []
    let action : Option Json := (getProp j (str "action")).getD none
    let isClick : Bool :=
      match action with
      | some (.str a) => a = str "click"
      | _ => false
    let isType : Bool :=
      match action with
      | some (.str a) => a = str "type"
      | _ => false
    let valueOk : Bool :=
      match (getProp j (str "value")).getD none with
      | some (.str v) => decide (v.length ≤ MAX_VALUE_LENGTH)
      | _ => false
    some (jsTruthy j && (isClick || isType) &&
      decide (0 < selector.length) && decide (selector.length ≤ MAX_SELECTOR_LENGTH) &&
      !(jsIncludes selector (str "\n")) &&
      (isClick || valueOk))

/-- `parsed.filter(isValidInstruction)` with JavaScript exception
semantics: a throwing callback aborts the whole filter (`none`). -/
def filterValidInstructions : List Json → Option (List Json)
  | [] => some []
  | j :: rest =>
    match isValidInstruction j with
    | none => none
    | some b => (filterValidInstructions rest).map (fun r => if b then j :: r else r)

/-- The branch of `requestGeminiActions` after `JSON.parse` succeeds
(`gemini.ts` lines 344-351), with the surrounding `catch` mapping a
thrown filter to `[]`. -/
def handleParsedPayload (parsed : Json) : List Json :=
  match parsed with
  | .arr elems => (filterValidInstructions elems).getD []
  | j =>
    match isValidInstruction j with
    | some true => [j]
    | _ => []

/-- Split a string at the first occurrence of three backticks. -/
def splitTicks : JSStr → Option (JSStr × JSStr)
  | [] => none
  | '`' :: '`' :: '`' :: rest => some ([], rest)
  | c :: rest => (splitTicks rest).map (fun p => (c :: p.1, p.2))

/-- Does the string begin with a case-insensitive json fence opener? -/
def fenceJsonAt (s : JSStr) : Bool :=
  match s with
  | '`' :: '`' :: '`' :: c1 :: c2 :: c3 :: c4 :: _ =>
    Char.toLower c1 = 'j' && Char.toLower c2 = 's' && Char.toLower c3 = 'o' && Char.toLower c4 = 'n'
  | _ => false

/-- Model of the regex search for a json code fence: the first fence
opener that has a closing triple backtick after it wins, and the capture
is the text between, trimmed (the regex `\s*` boundaries plus the
`.trim()` the source applies amount to a full trim). -/
def findFence : JSStr → Option JSStr
  | [] => none
  | c :: rest =>
    if fenceJsonAt (c :: rest) then
      match splitTicks ((c :: rest).drop 7) with
      | some (seg, _) => some (jsTrim seg)
      | none => findFence rest
    else findFence rest

/-- The run from the start of `l` up to and including the last
occurrence of `close` (caller guarantees one exists). -/
def takeToLast (close : Char) (l : JSStr) : JSStr :=
  (l.reverse.dropWhile (fun c => c ≠ close)).reverse

/-- Model of the bare-JSON regex `\x7b[\s\S]*\x7d|\[[\s\S]*\]`: the
leftmost opener that has its closer somewhere later wins, and the greedy
body runs to the last such closer. -/
def bareMatch : JSStr → Option JSStr
  | [] => none
  | c :: rest =>
    if c = '\x7b' && rest.contains '\x7d' then some ('\x7b' :: takeToLast '\x7d' rest)
    else if c = '[' && rest.contains ']' then some ('[' :: takeToLast ']' rest)
    else bareMatch rest

/-- `extractJsonPayload` (`gemini.ts` lines 208-221). -/
def extractJsonPayload (text : JSStr) : Option JSStr :=
  let trimmed := jsTrim text
  let fallback : Option JSStr :=
    if jsStartsWith trimmed (str "\x7b") || jsStartsWith trimmed (str "[") then some trimmed
    else (bareMatch trimmed).map jsTrim
  match findFence trimmed with
  | some inner => if inner ≠ [] then some inner else fallback
  | none => fallback

/-- The pure tail of `requestGeminiActions` (`gemini.ts` lines 332-355):
from the text returned by the model to the validated instruction list. -/
def geminiPipelineText (rawText : JSStr) : List Json :=
  let textResponse := jsTrim rawText
  if textResponse = [] then []
  else
    match extractJsonPayload textResponse with
    | none => []
    | some payload =>
      if payload = [] then []
      else
        match jsonParse payload with
        | none => []
        | some parsed => handleParsedPayload parsed

/-- Outcome of the Gemini SDK call inside `requestGeminiActions`. -/
inductive GenOutcome where
  | threw
  | emptyResponse
  | textThrew
  | text (t : JSStr)
  deriving Repr, DecidableEq

/-- The effectful environment of one `requestGeminiActions` call:
the configured API key, whether the `Promise.all` page capture resolves,
whether the SDK client initialises, and what `generateContent` produces. -/
structure OracleEnv where
  apiKey : Option JSStr
  captureOk : Bool
  sdkInitOk : Bool
  gen : GenOutcome

/-- JavaScript truthiness of an optional environment string
(`undefined` and the empty string are falsy). -/
def envTruthy : Option JSStr → Bool
  | none => false
  | some s => decide (s ≠ [])

/-- `requestGeminiActions` (`gemini.ts` lines 262-356) as a function of
its environment.  `.error ()` models an exception escaping the function:
the only uncaught operation is the `Promise.all` page capture (DOM
serialisation and screenshot), which sits outside every `try` block. -/
def requestGeminiActions (env : OracleEnv) : Except Unit (List Json) :=
  if !envTruthy env.apiKey then .ok []
  else if !env.captureOk then .error ()
  else if !env.sdkInitOk then .ok []
  else
    match env.gen with
    | .threw => .ok []
    | .emptyResponse => .ok []
    | .textThrew => .ok []
    | .text t => .ok (geminiPipelineText t)

/-- `handleAIResponse` (`gemini.ts` lines 358-397) over an abstract
page: `actionOk i` tells whether the click/fill for instruction `i`
succeeds on the live page.  Returns whether at least one instruction
executed; invalid entries are skipped by the re-validation, failures are
caught per instruction. -/
def handleAIResponse (actionOk : Json → Bool) (instructions : List Json) : Bool :=
  instructions.any (fun i => (isValidInstruction i).getD false && actionOk i)

/-! ## `AI_ACTION_DELAY_MS` and the model of `Number` -/

/-- Numeric value of a run of digits in an arbitrary base, rejecting
digits outside the base. -/
def radixToNat (digVal : Char → Option Nat) (base : Nat) (r : JSStr) : Option Nat :=
  if r = [] then none
  else
    r.foldl
      (fun acc c =>
        match acc, digVal c with
        | some a, some d => some (a * base + d)
        | _, _ => none)
      (some 0)

/-- Binary digit. -/
def binDigitVal (c : Char) : Option Nat :=
  if c = '0' then some 0 else if c = '1' then some 1 else none

/-- Octal digit. -/
def octDigitVal (c : Char) : Option Nat :=
  if c.isDigit ∧ c.toNat ≤ 55 then some (c.toNat - 48) else none

/-- An unsigned decimal numeric literal (with optional fraction and
exponent) for `Number`; `none` is `NaN` or `Infinity` (not finite). -/
def numLiteral (r : JSStr) : Option ℚ :=
  if r = str "Infinity" then none
  else
    let ip := r.takeWhile Char.isDigit
    let s2 := r.drop ip.length
    let (fp, s3) : JSStr × JSStr :=
      match s2 with
      | '.' :: r2 => (r2.takeWhile Char.isDigit, r2.dropWhile Char.isDigit)
      | _ => ([], s2)
    if ip = [] ∧ fp = [] then none
    else
      let base : ℚ :=
        if fp = [] then (digitsToNat ip : ℚ)
        else (digitsToNat ip : ℚ) + (digitsToNat fp : ℚ) / ((10 : ℚ) ^ fp.length)
      match s3 with
      | [] => some base
      | e :: r3 =>
        if e = 'e' ∨ e = 'E' then
          let (eneg, r4) : Bool × JSStr :=
            match r3 with
            | '+' :: r4 => (false, r4)
            | '-' :: r4 => (true, r4)
            | _ => (false, r3)
          let ed := r4.takeWhile Char.isDigit
          if ed = [] ∨ r4.drop ed.length ≠ [] then none
          else some (if eneg then base / ((10 : ℚ) ^ digitsToNat ed)
                     else base * ((10 : ℚ) ^ digitsToNat ed))
        else none

/-- Model of `Number(string)`: `some q` when the coercion yields the
finite number `q`, `none` when it yields `NaN` or an infinity.  Covers
whitespace trimming, the empty string (0), hex/binary/octal prefixes,
signed decimal literals and `Infinity`.  Numeric separators and values
beyond double precision are not modelled (the model is exact where IEEE
doubles round). -/
def jsStringToNumber (s : JSStr) : Option ℚ :=
  let t := jsTrim s
  match t with
  | [] => some 0
  | '0' :: 'x' :: r => (radixToNat hexDigitVal 16 r).map (fun n => (n : ℚ))
  | '0' :: 'X' :: r => (radixToNat hexDigitVal 16 r).map (fun n => (n : ℚ))
  | '0' :: 'b' :: r => (radixToNat binDigitVal 2 r).map (fun n => (n : ℚ))
  | '0' :: 'B' :: r => (radixToNat binDigitVal 2 r).map (fun n => (n : ℚ))
  | '0' :: 'o' :: r => (radixToNat octDigitVal 8 r).map (fun n => (n : ℚ))
  | '0' :: 'O' :: r => (radixToNat octDigitVal 8 r).map (fun n => (n : ℚ))
  | '+' :: r => numLiteral r
  | '-' :: r => (numLiteral r).map Neg.neg
  | r => numLiteral r

/-- `Number(process.env.AI_ACTION_DELAY_MS)` where the variable may be
unset (`Number(undefined)` is `NaN`). -/
def jsNumberOfEnv : Option JSStr → Option ℚ
  | none => none
  | some s => jsStringToNumber s

/-- `AI_ACTION_DELAY_MS` (`eventBot.ts` lines 7-9):
`Number.isFinite(Number(v)) ? Number(v) : 500`. -/
def aiActionDelayMs (envVar : Option JSStr) : ℚ :=
  match jsNumberOfEnv envVar with
  | some q => q
  | none => 500

/-! ## `guardWithGemini` (`eventBot.ts` lines 99-132) -/

/-- Observable outcome of one guard invocation: the reason string passed
to the oracle (`none` when no divergence was declared) and the settle
delay applied after an executed instruction batch. -/
structure GuardResult where
  escalationReason : Option JSStr
  settleDelayMs : Option ℚ
  deriving Repr, DecidableEq

/-- The escalation reason string built by `guardWithGemini`
(`eventBot.ts` line 120): the ternary appends exactly one of the two
condition tags. -/
def guardReason (reason : JSStr) (unexpectedUrl : Bool) : JSStr :=
  reason ++ str " - " ++
    (if unexpectedUrl then str "unexpected workflow URL" else str "captcha detected")

/-- `guardWithGemini` over an abstract page: `captchaDetected` is the
result of `detectCaptcha` (live-page visibility, not modelled further),
`actionOk` tells which oracle instructions succeed on the page, and
`delayEnv` is `process.env.AI_ACTION_DELAY_MS`.  `.error ()` models the
uncaught exception from `requestGeminiActions`. -/
def guardWithGemini (pageUrl : JSStr) (allowlist allowedOrigins : List JSStr)
    (reason : JSStr) (captchaDetected : Bool) (oracle : OracleEnv)
    (actionOk : Json → Bool) (delayEnv : Option JSStr) :
    Except Unit GuardResult :=
  let unexpectedUrl := !isAllowedWorkflowUrl pageUrl allowlist allowedOrigins
  if !unexpectedUrl && !captchaDetected then .ok ⟨none, none⟩
  else
    match requestGeminiActions oracle with
    | .error e => .error e
    | .ok instructions =>
      if instructions.length = 0 then .ok ⟨some (guardReason reason unexpectedUrl), none⟩
      else
        .ok ⟨some (guardReason reason unexpectedUrl),
          if handleAIResponse actionOk instructions then some (aiActionDelayMs delayEnv) else none⟩

/-! ## `helpers/time.ts` — `hasStartTimePassed`

The strict variant with the ISO pattern gate (`src/unnamed/part_006`).
`new Date` on a pattern-matching string is modelled by exact calendar
arithmetic (proleptic Gregorian, days-from-civil), validating
component ranges the way the ECMAScript date parser does. -/

/-- The parsed components of a strict ISO timestamp. -/
structure IsoParts where
  year : Nat
  month : Nat
  day : Nat
  hour : Nat
  minute : Nat
  second : Nat
  fracDigits : JSStr
  tzSign : Option Bool
  tzHour : Nat
  tzMinute : Nat
  deriving Repr, DecidableEq

/-- Two decimal digits. -/
def twoDigits : JSStr → Option (Nat × JSStr)
  | c1 :: c2 :: r =>
    if c1.isDigit && c2.isDigit then some ((c1.toNat - 48) * 10 + (c2.toNat - 48), r)
    else none
  | _ => none

/-- Structural matcher for the regex
`^\d\x7b4\x7d-\d\x7b2\x7d-\d\x7b2\x7dT\d\x7b2\x7d:\d\x7b2\x7d:\d\x7b2\x7d(?:\.\d+)?(?:Z|[+-]\d\x7b2\x7d:\d\x7b2\x7d)$`
of `hasStartTimePassed`; `some` exactly when the pattern matches. -/
def parseIsoParts (s : JSStr) : Option IsoParts :=
  match s with
  | y1 :: y2 :: y3 :: y4 :: '-' :: rest =>
    if y1.isDigit && y2.isDigit && y3.isDigit && y4.isDigit then
      let year := ((y1.toNat - 48) * 10 + (y2.toNat - 48)) * 100 +
        (y3.toNat - 48) * 10 + (y4.toNat - 48)
      match twoDigits rest with
      | some (month, '-' :: r2) =>
        match twoDigits r2 with
        | some (day, 'T' :: r3) =>
          match twoDigits r3 with
          | some (hour, ':' :: r4) =>
            match twoDigits r4 with
            | some (minute, ':' :: r5) =>
              match twoDigits r5 with
              | some (second, r6) =>
                let (frac, r7) : JSStr × JSStr :=
                  match r6 with
                  | '.' :: r7 => (r7.takeWhile Char.isDigit, r7.dropWhile Char.isDigit)
                  | _ => ([], r6)
                if (match r6 with | '.' :: _ => decide (frac = []) | _ => false) then none
                else
                  match r7 with
                  | ['Z'] =>
                    some ⟨year, month, day, hour, minute, second, frac, none, 0, 0⟩
                  | '+' :: r8 =>
                    (match twoDigits r8 with
                     | some (tzh, ':' :: r9) =>
                       (match twoDigits r9 with
                        | some (tzm, []) =>
                          some ⟨year, month, day, hour, minute, second, frac, some false, tzh, tzm⟩
                        | _ => none)
                     | _ => none)
                  | '-' :: r8 =>
                    (match twoDigits r8 with
                     | some (tzh, ':' :: r9) =>
                       (match twoDigits r9 with
                        | some (tzm, []) =>
                          some ⟨year, month, day, hour, minute, second, frac, some true, tzh, tzm⟩
                        | _ => none)
                     | _ => none)
                  | _ => none
              | _ => none
            | _ => none
          | _ => none
        | _ => none
      | _ => none
    else none
  | _ => none

/-- Days since 1970-01-01 of a civil date (proleptic Gregorian);
the standard days-from-civil algorithm over `Int` with truncating
division, as used by calendar libraries. -/
def daysFromCivil (y m d : Int) : Int :=
  let y := if m ≤ 2 then y - 1 else y
  let era := (if 0 ≤ y then y else y - 399) / 400
  let yoe := y - era * 400
  let mp := (m + 9) % 12
  let doy := (153 * mp + 2) / 5 + d - 1
  let doe := yoe * 365 + yoe / 4 - yoe / 100 + doy
  era * 146097 + doe - 719468

/-- Gregorian leap year. -/
def isLeapYear (y : Nat) : Bool := (y % 4 = 0 ∧ y % 100 ≠ 0) ∨ y % 400 = 0

/-- Days in a month. -/
def daysInMonth (y m : Nat) : Nat :=
  if m = 2 then (if isLeapYear y then 29 else 28)
  else if m = 4 ∨ m = 6 ∨ m = 9 ∨ m = 11 then 30
  else 31

/-- Milliseconds encoded by the fractional-seconds digits: the date
parser reads at most millisecond precision (first three digits, padded
with zeros). -/
def fracMs (frac : JSStr) : Nat :=
  digitsToNat (frac.take 3 ++ List.replicate (3 - (frac.take 3).length) '0')

/-- Are the components of a pattern-matching timestamp in range, the way
the ECMAScript date parser validates them (`new Date(s)` is an Invalid
Date otherwise)?  Hour 24 is allowed only at exactly 24:00:00.000. -/
def isoPartsValid (p : IsoParts) : Bool :=
  1 ≤ p.month && p.month ≤ 12 &&
  1 ≤ p.day && decide (p.day ≤ daysInMonth p.year p.month) &&
  (p.hour ≤ 23 || (p.hour = 24 && p.minute = 0 && p.second = 0 && fracMs p.fracDigits = 0)) &&
  p.minute ≤ 59 && p.second ≤ 59 && p.tzHour ≤ 23 && p.tzMinute ≤ 59

/-- The epoch milliseconds denoted by a strict ISO timestamp string, or
`none` when the string does not match the pattern or `new Date` would
yield an Invalid Date. -/
def isoEpochMs (s : JSStr) : Option Int :=
  match parseIsoParts s with
  | none => none
  | some p =>
    if isoPartsValid p then
      let days := daysFromCivil p.year p.month p.day
      let tzMin : Int := (p.tzHour * 60 + p.tzMinute : Nat)
      let offsetMin : Int :=
        match p.tzSign with
        | none => 0
        | some false => tzMin
        | some true => -tzMin
      some (days * 86400000 + (p.hour : Int) * 3600000 + (p.minute : Int) * 60000 +
        (p.second : Int) * 1000 + (fracMs p.fracDigits : Int) - offsetMin * 60000)
    else none

/-- `hasStartTimePassed` (`helpers/time.ts`, the strict variant of
`src/unnamed/part_006`), as a function of the configured string and the
current epoch milliseconds `now`. -/
def hasStartTimePassed (startTime : Option JSStr) (now : Int) : Bool :=
  match startTime with
  | none => true
  | some s =>
    if s = [] then true
    else if (parseIsoParts s).isNone then true
    else
      match isoEpochMs s with
      | none => true
      | some t => if now < t then false else true

/-! ## The configuration and gate part of `main` (`eventBot.ts` lines 134-183) -/

/-- `EXIT_CODE_START_TIME_NOT_REACHED` (`eventBot.ts` line 6). -/
def EXIT_CODE_START_TIME_NOT_REACHED : Nat := 3

/-- The environment `main` reads before any browser work. -/
structure MainEnv where
  targetUrl : Option JSStr
  eventUrl : Option JSStr
  startTime : Option JSStr
  loginEmail : Option JSStr
  loginPassword : Option JSStr
  now : Int

/-- How one run of `main` leaves the pre-browser phase. -/
inductive MainOutcome where
  /-- A missing-configuration `throw`, caught by the outer handler. -/
  | configError (message : JSStr)
  /-- The start-time gate: `process.exitCode = 3` and return. -/
  | gateNotReached
  /-- The gate passed: `main` goes on to launch the browser and navigate. -/
  | proceeded
  deriving Repr, DecidableEq

/-- The checks of `main` up to the browser launch, in source order:
target (with the `||` fallback to `EVENT_URL`), credentials, then the
start-time gate. -/
def mainGate (env : MainEnv) : MainOutcome :=
  let targetUrl := if envTruthy env.targetUrl then env.targetUrl else env.eventUrl
  if !envTruthy targetUrl then
    .configError (str "Missing required environment variable: TARGET_URL")
  else if !envTruthy env.loginEmail || !envTruthy env.loginPassword then
    .configError (str "Missing required environment variables: LOGIN_EMAIL and LOGIN_PASSWORD")
  else if !hasStartTimePassed env.startTime env.now then
    .gateNotReached
  else
    .proceeded

/-- The process exit code set by the pre-browser phase (`some`): a
caught configuration error logs the failure and sets 1; the gate sets 3;
`none` means the run continues and the code depends on later steps. -/
def exitCodeOfOutcome : MainOutcome → Option Nat
  | .configError _ => some 1
  | .gateNotReached => some EXIT_CODE_START_TIME_NOT_REACHED
  | .proceeded => none

/-- Does the outcome reach `chromium.launch`? -/
def launchesBrowser : MainOutcome → Bool
  | .proceeded => true
  | _ => false

/-- Does the outcome hit the `catch` block that logs a purchase
failure?  The gate returns from inside the `try` without throwing. -/
def reportsFailure : MainOutcome → Bool
  | .configError _ => true
  | _ => false

/-! ## `performLogin` (`helpers/common.ts`, `src/unnamed/part_003` lines 99-175)

The live page is abstracted to the visibility predicate the executor
queries: `visible sel` is whether `page.locator(sel).first()` reports
visible within its bounded wait (a selector whose lookup throws counts
as not visible, matching the per-candidate `catch`). -/

/-- Abstract page for the step executors. -/
structure PageVis where
  visible : JSStr → Bool

/-- The default email/username input candidates
(`defaultLoginSelectors.emailInputs`). -/
def defaultEmailInputs : List JSStr :=
  [str "input[type=\"email\"]", str "input[name=\"email\"]", str "input[name=\"username\"]",
   str "input[placeholder*=\"email\" i]", str "input[placeholder*=\"Email\" i]",
   str "#email", str "#username"]

/-- The default login-button candidates (`defaultLoginSelectors.loginButtons`). -/
def defaultLoginButtons : List JSStr :=
  [str "a:has-text(\"Login\")", str "a:has-text(\"Sign in\")", str "a:has-text(\"Log in\")",
   str "button:has-text(\"Login\")", str "button:has-text(\"Sign in\")",
   str "[href*=\"login\"]", str "[href*=\"signin\"]", str "#login", str ".login"]

/-- The default submit-button candidates (`defaultLoginSelectors.submitButtons`). -/
def defaultSubmitButtons : List JSStr :=
  [str "button[type=\"submit\"]", str "button:has-text(\"Login\")",
   str "button:has-text(\"Sign in\")", str "button:has-text(\"Log in\")",
   str "input[type=\"submit\"]"]

/-- Result of the login step executor: the boolean it returns and
whether any credential was filled into the page. -/
structure LoginResult where
  success : Bool
  filledCredential : Bool
  deriving Repr, DecidableEq

/-- `performLogin`: click the first visible login button (if any), look
for the first visible email input; if none is visible return success
without filling; otherwise fill the email, require a visible password
input (its `waitFor` throws into the outer `catch`, returning `false`),
fill it, click the first visible submit button, and return success. -/
def performLogin (page : PageVis) (emailSelectors : List JSStr) : LoginResult :=
  match emailSelectors.find? (fun sel => page.visible sel) with
  | none => { success := true, filledCredential := false }
  | some _ =>
    if page.visible (str "input[type=\"password\"]") then
      { success := true, filledCredential := true }
    else
      { success := false, filledCredential := true }

/-! ## Helper lemmas -/

theorem mem_dedupFirstAux (a : JSStr) :
    ∀ (l : List JSStr) (seen : List JSStr),
      a ∈ dedupFirstAux seen l ↔ a ∈ l ∧ a ∉ seen := by
  intro l
  induction l with
  | nil => intro seen; simp [dedupFirstAux]
  | cons x xs ih =>
    intro seen
    by_cases hx : x ∈ seen
    · rw [dedupFirstAux, if_pos hx, ih]
      constructor
      · rintro ⟨h1, h2⟩
        exact ⟨List.mem_cons_of_mem x h1, h2⟩
      · rintro ⟨h1, h2⟩
        rcases List.mem_cons.mp h1 with rfl | h1
        · exact absurd hx h2
        · exact ⟨h1, h2⟩
    · rw [dedupFirstAux, if_neg hx]
      constructor
      · intro h
        rcases List.mem_cons.mp h with rfl | h
        · exact ⟨List.mem_cons_self a xs, hx⟩
        · rcases (ih (x :: seen)).mp h with ⟨h1, h2⟩
          refine ⟨List.mem_cons_of_mem x h1, fun hc => h2 (List.mem_cons_of_mem x hc)⟩
      · rintro ⟨h1, h2⟩
        rcases List.mem_cons.mp h1 with rfl | h1
        · exact List.mem_cons_self a _
        · by_cases hax : a = x
          · subst hax; exact List.mem_cons_self a _
          · exact List.mem_cons_of_mem x ((ih (x :: seen)).mpr
              ⟨h1, fun hc => (List.mem_cons.mp hc).elim hax h2⟩)

theorem mem_dedupFirst (a : JSStr) (l : List JSStr) : a ∈ dedupFirst l ↔ a ∈ l := by
  rw [dedupFirst, mem_dedupFirstAux]
  simp

/-! ## Claims -/

/-- C8: if none of the email/username input-field candidate selectors
yields a visible element within its bounded wait, the login step
executor returns success (`true`) without filling any credential,
treating the page as already authenticated. -/
theorem c8_login_no_email_fields_succeeds (page : PageVis) (emailSelectors : List JSStr)
    (h : ∀ sel ∈ emailSelectors, page.visible sel = false) :
    performLogin page emailSelectors = { success := true, filledCredential := false } := by
  unfold performLogin
  have hnone : emailSelectors.find? (fun sel => page.visible sel) = none := by
    rw [List.find?_eq_none]
    intro x hx
    simp [h x hx]
  rw [hnone]

/-- Witness for C8: a page with no visible element at all, with the
default email candidates. -/
theorem c8_witness :
    (∀ sel ∈ defaultEmailInputs, (PageVis.mk (fun _ => false)).visible sel = false) ∧
    performLogin (PageVis.mk (fun _ => false)) defaultEmailInputs =
      { success := true, filledCredential := false } :=
  ⟨fun _ _ => rfl, c8_login_no_email_fields_succeeds _ _ (fun _ _ => rfl)⟩

/-- C10: the start-time gate fails open on malformed input: a start-time
string that does not match the strict ISO pattern makes
`hasStartTimePassed` return `true` for every current time, and a run
whose configuration is otherwise complete proceeds immediately. -/
theorem c10_start_gate_fails_open (env : MainEnv) (s : JSStr)
    (hpat : parseIsoParts s = none) :
    hasStartTimePassed (some s) env.now = true ∧
    (envTruthy (if envTruthy env.targetUrl then env.targetUrl else env.eventUrl) = true →
      envTruthy env.loginEmail = true → envTruthy env.loginPassword = true →
      env.startTime = some s → mainGate env = .proceeded) := by
  have hpass : hasStartTimePassed (some s) env.now = true := by
    by_cases hs : s = []
    · simp [hasStartTimePassed, hs]
    · simp [hasStartTimePassed, hs, hpat]
  refine ⟨hpass, fun ht he hp hst => ?_⟩
  simp only [mainGate, ht, he, hp, hst, hpass, Bool.not_true, Bool.or_self,
    Bool.false_eq_true, if_false]

/-- Witness for C10: a future date-only timestamp. -/
theorem c10_witness :
    parseIsoParts (str "2099-01-06") = none ∧
    hasStartTimePassed (some (str "2099-01-06")) 1767225600000 = true ∧
    mainGate { targetUrl := some (str "https://example.com/event"), eventUrl := none,
               startTime := some (str "2099-01-06"),
               loginEmail := some (str "user@example.com"),
               loginPassword := some (str "hunter2"),
               now := 1767225600000 } = .proceeded := by
  refine ⟨rfl, ?_, ?_⟩
  · exact (c10_start_gate_fails_open
      { targetUrl := some (str "https://example.com/event"), eventUrl := none,
        startTime := some (str "2099-01-06"),
        loginEmail := some (str "user@example.com"),
        loginPassword := some (str "hunter2"),
        now := 1767225600000 } (str "2099-01-06") rfl).1
  · exact (c10_start_gate_fails_open
      { targetUrl := some (str "https://example.com/event"), eventUrl := none,
        startTime := some (str "2099-01-06"),
        loginEmail := some (str "user@example.com"),
        loginPassword := some (str "hunter2"),
        now := 1767225600000 } (str "2099-01-06") rfl).2 rfl rfl rfl rfl


/-- C9 (counterexample): a whitespace-only settle-delay string — not a
numeric string — does not yield the default 500; it coerces to 0 and 0
is used as the delay. -/
theorem c9_counterexample :
    aiActionDelayMs (some (str " ")) = 0 ∧ (0 : ℚ) ≠ 500 := by
  exact ⟨rfl, by norm_num⟩

/-- C9 (amended): when the settle-delay variable is unset, or holds a
string whose `Number` coercion is not finite, the delay is 500; when the
coercion yields a finite number (which includes empty and
whitespace-only strings, coerced to 0), that number is used.  Every
settle delay the guard applies after an executed instruction batch is
this value. -/
theorem c9_amended (v : Option JSStr) :
    (v = none → aiActionDelayMs v = 500) ∧
    (∀ s, v = some s → jsStringToNumber s = none → aiActionDelayMs v = 500) ∧
    (∀ s q, v = some s → jsStringToNumber s = some q → aiActionDelayMs v = q) ∧
    (∀ url allowlist allowedOrigins reason captcha oracle actionOk res d,
      guardWithGemini url allowlist allowedOrigins reason captcha oracle actionOk v = .ok res →
      res.settleDelayMs = some d → d = aiActionDelayMs v) := by
  refine ⟨?_, ?_, ?_, ?_⟩
  · rintro rfl; rfl
  · rintro s rfl hn
    simp [aiActionDelayMs, jsNumberOfEnv, hn]
  · rintro s q rfl hq
    simp [aiActionDelayMs, jsNumberOfEnv, hq]
  · intro url allowlist allowedOrigins reason captcha oracle actionOk res d hg hd
    simp only [guardWithGemini] at hg
    split at hg
    · cases hg
      simp at hd
    · rcases hreq : requestGeminiActions oracle with e | insts <;> rw [hreq] at hg
      · cases hg
      · simp only [] at hg
        by_cases hlen : insts.length = 0
        · rw [if_pos hlen] at hg
          cases hg
          simp at hd
        · rw [if_neg hlen] at hg
          cases hg
          by_cases hex : handleAIResponse actionOk insts = true
          · simp only [hex, if_true] at hd
            exact (Option.some_inj.mp hd).symm
          · simp only [Bool.not_eq_true] at hex
            simp [hex] at hd

/-- Witness for C9 (amended): the unset case, a non-numeric string and a
numeric string. -/
theorem c9_witness :
    aiActionDelayMs none = 500 ∧
    jsStringToNumber (str "soon") = none ∧ aiActionDelayMs (some (str "soon")) = 500 ∧
    jsStringToNumber (str "250") = some 250 ∧ aiActionDelayMs (some (str "250")) = 250 := by
  refine ⟨(c9_amended none).1 rfl, rfl, ?_, rfl, ?_⟩
  · exact (c9_amended (some (str "soon"))).2.1 _ rfl rfl
  · exact (c9_amended (some (str "250"))).2.2.1 _ 250 rfl rfl

/-- C7 (counterexample): a future timestamp written without an explicit
timezone (`2099-01-06T10:00:00`, which `new Date` accepts) fails the
strict pattern, so the run proceeds to launch the browser instead of
exiting with the gate status; the same wall-clock instant read as UTC is
73 years after the configured `now`. -/
theorem c7_counterexample :
    mainGate { targetUrl := some (str "https://example.com/event"), eventUrl := none,
               startTime := some (str "2099-01-06T10:00:00"),
               loginEmail := some (str "user@example.com"),
               loginPassword := some (str "hunter2"),
               now := 1767225600000 } = .proceeded ∧
    isoEpochMs (str "2099-01-06T10:00:00Z") = some 4071376800000 ∧
    (1767225600000 : Int) < 4071376800000 := by
  refine ⟨rfl, rfl, by norm_num⟩

/-- C7 (amended): for every configured start time that matches the
strict ISO pattern with an explicit timezone and denotes an instant
strictly after the current time, a fully-configured run ends in the
dedicated gate-not-reached outcome — exit code 3, distinct from success
(0) and failure (1) — before the browser is launched, and it is not
reported as a failure. -/
theorem c7_amended (env : MainEnv) (s : JSStr) (t : Int)
    (htarget : envTruthy (if envTruthy env.targetUrl then env.targetUrl else env.eventUrl) = true)
    (hemail : envTruthy env.loginEmail = true)
    (hpassword : envTruthy env.loginPassword = true)
    (hstart : env.startTime = some s)
    (ht : isoEpochMs s = some t)
    (hfuture : env.now < t) :
    mainGate env = .gateNotReached ∧
    exitCodeOfOutcome (mainGate env) = some EXIT_CODE_START_TIME_NOT_REACHED ∧
    EXIT_CODE_START_TIME_NOT_REACHED = 3 ∧
    EXIT_CODE_START_TIME_NOT_REACHED ≠ 0 ∧ EXIT_CODE_START_TIME_NOT_REACHED ≠ 1 ∧
    launchesBrowser (mainGate env) = false ∧
    reportsFailure (mainGate env) = false := by
  have hparse : (parseIsoParts s).isSome := by
    unfold isoEpochMs at ht
    rcases hp : parseIsoParts s with _ | p
    · rw [hp] at ht; cases ht
    · rfl
  have hnonempty : s ≠ [] := by
    intro hnil
    rw [hnil] at hparse
    cases hparse
  have hnotNone : (parseIsoParts s).isNone = false := by
    rcases hp : parseIsoParts s with _ | p
    · rw [hp] at hparse
      cases hparse
    · rfl
  have hgate : hasStartTimePassed (some s) env.now = false := by
    simp only [hasStartTimePassed, if_neg hnonempty, hnotNone, Bool.false_eq_true,
      if_false, ht, if_pos hfuture]
  have hmain : mainGate env = .gateNotReached := by
    simp only [mainGate, htarget, hemail, hpassword, hstart, hgate, Bool.not_true,
      Bool.not_false, Bool.or_self, Bool.false_eq_true, if_false, if_true]
  refine ⟨hmain, ?_, rfl, by decide, by decide, ?_, ?_⟩ <;> rw [hmain] <;> rfl

/-- Witness for C7 (amended): a strict-ISO future start time. -/
theorem c7_witness :
    mainGate { targetUrl := some (str "https://example.com/event"), eventUrl := none,
               startTime := some (str "2099-01-06T10:00:00Z"),
               loginEmail := some (str "user@example.com"),
               loginPassword := some (str "hunter2"),
               now := 1767225600000 } = .gateNotReached :=
  (c7_amended
    { targetUrl := some (str "https://example.com/event"), eventUrl := none,
      startTime := some (str "2099-01-06T10:00:00Z"),
      loginEmail := some (str "user@example.com"),
      loginPassword := some (str "hunter2"),
      now := 1767225600000 }
    (str "2099-01-06T10:00:00Z") 4071376800000 rfl rfl rfl rfl rfl (by norm_num)).1

/-- C5 (counterexample): with the page both off-workflow and challenged,
the escalation reason reports only "unexpected workflow URL"; the
"captcha detected" tag is absent. -/
theorem c5_counterexample :
    isAllowedWorkflowUrl (str "https://evil.com/")
      (buildWorkflowAllowlist (str "https://example.com/event"))
      (deriveAllowedOrigins (buildWorkflowAllowlist (str "https://example.com/event"))) = false ∧
    guardWithGemini (str "https://evil.com/")
      (buildWorkflowAllowlist (str "https://example.com/event"))
      (deriveAllowedOrigins (buildWorkflowAllowlist (str "https://example.com/event")))
      (str "After initial navigation") true
      { apiKey := none, captureOk := true, sdkInitOk := true, gen := .threw }
      (fun _ => false) none =
      .ok { escalationReason := some (str "After initial navigation - unexpected workflow URL"),
            settleDelayMs := none } ∧
    jsIncludes (str "After initial navigation - unexpected workflow URL")
      (str "captcha detected") = false := by
  refine ⟨by decide, rfl, by decide⟩

/-- C5 (amended): the off-workflow condition and the challenge condition
are both computed on every guard invocation and divergence is declared
iff either holds; but the reason string names exactly one of them: the
suffix is "unexpected workflow URL" whenever the page is off-workflow
(even if a challenge was also detected), and "captcha detected" only
when the page is on-workflow and challenged. -/
theorem c5_amended (url : JSStr) (allowlist allowedOrigins : List JSStr)
    (reason : JSStr) (captcha : Bool) (oracle : OracleEnv)
    (actionOk : Json → Bool) (delayEnv : Option JSStr) :
    ((!isAllowedWorkflowUrl url allowlist allowedOrigins || captcha) = false →
      guardWithGemini url allowlist allowedOrigins reason captcha oracle actionOk delayEnv =
        .ok { escalationReason := none, settleDelayMs := none }) ∧
    (isAllowedWorkflowUrl url allowlist allowedOrigins = false →
      guardReason reason (!isAllowedWorkflowUrl url allowlist allowedOrigins) =
        reason ++ str " - " ++ str "unexpected workflow URL") ∧
    (isAllowedWorkflowUrl url allowlist allowedOrigins = true → captcha = true →
      guardReason reason (!isAllowedWorkflowUrl url allowlist allowedOrigins) =
        reason ++ str " - " ++ str "captcha detected") ∧
    (∀ res r,
      guardWithGemini url allowlist allowedOrigins reason captcha oracle actionOk delayEnv =
        .ok res →
      res.escalationReason = some r →
      r = guardReason reason (!isAllowedWorkflowUrl url allowlist allowedOrigins)) := by
  refine ⟨?_, ?_, ?_, ?_⟩
  · intro hquiet
    rcases Bool.or_eq_false_iff.mp hquiet with ⟨hu, hc⟩
    simp only [guardWithGemini, hu, hc, Bool.not_false, Bool.and_self, if_true]
  · intro hu
    simp [guardReason, hu]
  · intro hu hc
    simp [guardReason, hu]
  · intro res r hg hr
    simp only [guardWithGemini] at hg
    split at hg
    · cases hg
      simp at hr
    · rcases hreq : requestGeminiActions oracle with e | insts <;> rw [hreq] at hg
      · cases hg
      · simp only [] at hg
        by_cases hlen : insts.length = 0
        · rw [if_pos hlen] at hg
          cases hg
          simp only [GuardResult.mk.injEq] at hr ⊢
          exact (Option.some_inj.mp hr).symm
        · rw [if_neg hlen] at hg
          cases hg
          exact (Option.some_inj.mp hr).symm

/-- Witness for C5 (amended): a quiet page, an off-workflow reason, an
on-workflow captcha reason, and the reason reported by an escalating
guard call. -/
theorem c5_witness :
    guardWithGemini (str "https://example.com/event")
      (buildWorkflowAllowlist (str "https://example.com/event"))
      (deriveAllowedOrigins (buildWorkflowAllowlist (str "https://example.com/event")))
      (str "Post-login guard") false
      { apiKey := none, captureOk := true, sdkInitOk := true, gen := .threw }
      (fun _ => false) none = .ok { escalationReason := none, settleDelayMs := none } ∧
    guardReason (str "Post-login guard") true =
      str "Post-login guard" ++ str " - " ++ str "unexpected workflow URL" ∧
    guardReason (str "Post-login guard") false =
      str "Post-login guard" ++ str " - " ++ str "captcha detected" := by
  refine ⟨?_, ?_, ?_⟩
  · exact (c5_amended (str "https://example.com/event")
      (buildWorkflowAllowlist (str "https://example.com/event"))
      (deriveAllowedOrigins (buildWorkflowAllowlist (str "https://example.com/event")))
      (str "Post-login guard") false
      { apiKey := none, captureOk := true, sdkInitOk := true, gen := .threw }
      (fun _ => false) none).1 (by decide)
  · exact (c5_amended (str "https://evil.com/")
      (buildWorkflowAllowlist (str "https://example.com/event"))
      (deriveAllowedOrigins (buildWorkflowAllowlist (str "https://example.com/event")))
      (str "Post-login guard") false
      { apiKey := none, captureOk := true, sdkInitOk := true, gen := .threw }
      (fun _ => false) none).2.1 (by decide)
  · exact (c5_amended (str "https://example.com/event")
      (buildWorkflowAllowlist (str "https://example.com/event"))
      (deriveAllowedOrigins (buildWorkflowAllowlist (str "https://example.com/event")))
      (str "Post-login guard") true
      { apiKey := none, captureOk := true, sdkInitOk := true, gen := .threw }
      (fun _ => false) none).2.2.1 (by decide) rfl

/-- C4 (counterexample): when the PageState capture fails (the
`Promise.all` of `page.content()` and `page.screenshot()` rejects),
`requestGeminiActions` does not yield an empty instruction set — the
exception escapes it (and the guard), since the capture sits outside
every `try` block. -/
theorem c4_counterexample :
    requestGeminiActions
      { apiKey := some (str "test-key"), captureOk := false, sdkInitOk := true,
        gen := .text (str "[]") } = .error () ∧
    guardWithGemini (str "https://evil.com/")
      (buildWorkflowAllowlist (str "https://example.com/event"))
      (deriveAllowedOrigins (buildWorkflowAllowlist (str "https://example.com/event")))
      (str "Before checkout") false
      { apiKey := some (str "test-key"), captureOk := false, sdkInitOk := true,
        gen := .text (str "[]") }
      (fun _ => false) none = .error () := by
  exact ⟨rfl, rfl⟩

/-- C4 (amended): provided the PageState capture succeeds, every failure
of the escalation path — missing or failed SDK client, unreachable
service or thrown call, empty or unreadable response, response text with
no parseable JSON — yields `.ok []` (an empty instruction set), never an
escaping error; a capture failure, by contrast, propagates as an
exception. -/
theorem c4_amended (env : OracleEnv) (hcap : env.captureOk = true) :
    (∃ insts, requestGeminiActions env = .ok insts) ∧
    (env.sdkInitOk = false → requestGeminiActions env = .ok []) ∧
    (env.gen = .threw ∨ env.gen = .emptyResponse ∨ env.gen = .textThrew →
      requestGeminiActions env = .ok []) ∧
    (∀ t, env.gen = .text t → jsTrim t ≠ [] → extractJsonPayload (jsTrim t) = none →
      requestGeminiActions env = .ok []) ∧
    (∀ t p, env.gen = .text t → jsTrim t ≠ [] → extractJsonPayload (jsTrim t) = some p →
      p ≠ [] → jsonParse p = none → requestGeminiActions env = .ok []) := by
  have hpipe : ∀ t, env.gen = .text t → jsTrim t ≠ [] → extractJsonPayload (jsTrim t) = none →
      requestGeminiActions env = .ok [] := by
    intro t hgen hne hext
    unfold requestGeminiActions
    rw [hcap, hgen]
    have hpt : geminiPipelineText t = [] := by
      unfold geminiPipelineText
      rw [if_neg hne]
      have : extractJsonPayload (jsTrim t) = none := hext
      rw [this]
    by_cases hk : envTruthy env.apiKey = true
    · simp only [hk, Bool.not_true, Bool.false_eq_true, if_false, Bool.not_false, if_true,
        Bool.not_eq_true]
      split
      · rfl
      · rw [hpt]
    · simp [hk]
  have hpipe2 : ∀ t p, env.gen = .text t → jsTrim t ≠ [] → extractJsonPayload (jsTrim t) = some p →
      p ≠ [] → jsonParse p = none → requestGeminiActions env = .ok [] := by
    intro t p hgen hne hext hpne hparse
    unfold requestGeminiActions
    rw [hcap, hgen]
    have hpt : geminiPipelineText t = [] := by
      unfold geminiPipelineText
      rw [if_neg hne, hext]
      simp only [if_neg hpne, hparse]
    by_cases hk : envTruthy env.apiKey = true
    · simp only [hk, Bool.not_true, Bool.false_eq_true, if_false, Bool.not_false, if_true,
        Bool.not_eq_true]
      split
      · rfl
      · rw [hpt]
    · simp [hk]
  refine ⟨?_, ?_, ?_, hpipe, hpipe2⟩
  · unfold requestGeminiActions
    rw [hcap]
    by_cases hk : envTruthy env.apiKey = true
    · simp only [hk, Bool.not_true, Bool.false_eq_true, if_false, Bool.not_false, if_true]
      by_cases hs : env.sdkInitOk = true
      · simp only [hs, Bool.not_true, Bool.false_eq_true, if_false]
        cases env.gen <;> exact ⟨_, rfl⟩
      · simp only [Bool.not_eq_true] at hs
        simp [hs]
    · simp [hk]
  · intro hs
    unfold requestGeminiActions
    rw [hcap, hs]
    by_cases hk : envTruthy env.apiKey = true
    · simp [hk]
    · simp [hk]
  · intro hgen
    unfold requestGeminiActions
    rw [hcap]
    by_cases hk : envTruthy env.apiKey = true
    · rcases hgen with h | h | h <;> rw [h] <;>
        by_cases hs : env.sdkInitOk = true <;> simp [hk, hs]
    · simp [hk]

/-- Witness for C4 (amended): a captured page whose oracle call throws. -/
theorem c4_witness :
    requestGeminiActions
      { apiKey := some (str "test-key"), captureOk := true, sdkInitOk := true,
        gen := .threw } = .ok [] :=
  (c4_amended
    { apiKey := some (str "test-key"), captureOk := true, sdkInitOk := true, gen := .threw }
    rfl).2.2.1 (Or.inl rfl)

/-- C6: an oracle response that is a fenced code block containing
exactly `[\x7b"action":"click","selector":"#x"\x7d]` is extracted,
parsed and validated into exactly one instruction: a click targeting
`#x`.  This holds both for a `json`-tagged fence (the regex's fenced
branch) and for a plain fence (via the bare-JSON fallback match). -/
theorem c6_fenced_click_extracted :
    extractJsonPayload (jsTrim (str "```json\n[\x7b\"action\":\"click\",\"selector\":\"#x\"\x7d]\n```")) =
      some (str "[\x7b\"action\":\"click\",\"selector\":\"#x\"\x7d]") ∧
    geminiPipelineText (str "```json\n[\x7b\"action\":\"click\",\"selector\":\"#x\"\x7d]\n```") =
      [Json.obj [(str "action", Json.str (str "click")),
                 (str "selector", Json.str (str "#x"))]] ∧
    geminiPipelineText (str "```\n[\x7b\"action\":\"click\",\"selector\":\"#x\"\x7d]\n```") =
      [Json.obj [(str "action", Json.str (str "click")),
                 (str "selector", Json.str (str "#x"))]] ∧
    isValidInstruction (Json.obj [(str "action", Json.str (str "click")),
                                  (str "selector", Json.str (str "#x"))]) = some true := by
  exact ⟨rfl, rfl, rfl, rfl⟩

theorem serializeAuthority_ne_nil (u : URLModel) : serializeAuthority u ≠ [] := by
  unfold serializeAuthority
  intro h
  have hlen := congrArg List.length h
  simp [List.length_append] at hlen

theorem originStr_ne_nil (u : URLModel) : originStr u ≠ [] := by
  unfold originStr
  split
  · exact serializeAuthority_ne_nil u
  · intro h
    cases h

theorem target_mem_allowlist (targetUrl : JSStr) :
    jsToLowerStr targetUrl ∈ buildWorkflowAllowlist targetUrl := by
  simp only [buildWorkflowAllowlist]
  rw [mem_dedupFirst]
  simp

theorem origin_mem_allowlist (targetUrl : JSStr) (u : URLModel)
    (hu : parseURL targetUrl = some u) :
    jsToLowerStr (originStr u) ∈ buildWorkflowAllowlist targetUrl := by
  have hne : jsToLowerStr (originStr u) ≠ [] := by
    intro h
    exact originStr_ne_nil u (List.map_eq_nil_iff.mp h)
  simp only [buildWorkflowAllowlist, hu]
  rw [mem_dedupFirst, if_pos hne]
  simp

/-- C1 (counterexample): a mixed-case target URL is not itself a member
of the allowlist built from it (only its lowercased form is). -/
theorem c1_counterexample :
    str "HTTPS://EXAMPLE.COM/Event" ∉
      buildWorkflowAllowlist (str "HTTPS://EXAMPLE.COM/Event") := by
  decide

/-- C1 (amended): for every target URL string `T`, the allowlist built
from `T` contains the lowercased `T`; and when `T` parses as a valid
URL it also contains `T`'s origin (lowercased — the origin of a parsed
URL is already a lowercase string). -/
theorem c1_amended (targetUrl : JSStr) :
    jsToLowerStr targetUrl ∈ buildWorkflowAllowlist targetUrl ∧
    ∀ u, parseURL targetUrl = some u →
      jsToLowerStr (originStr u) ∈ buildWorkflowAllowlist targetUrl :=
  ⟨target_mem_allowlist targetUrl, fun u hu => origin_mem_allowlist targetUrl u hu⟩

/-- Witness for C1 (amended): the lowercased target and its origin are
both in the allowlist of `https://example.com/event`. -/
theorem c1_witness :
    jsToLowerStr (str "https://example.com/event") ∈
      buildWorkflowAllowlist (str "https://example.com/event") ∧
    jsToLowerStr (originStr
        { scheme := str "https", host := str "example.com", port := none,
          pathname := str "/event", suffix := [] }) ∈
      buildWorkflowAllowlist (str "https://example.com/event") :=
  ⟨(c1_amended (str "https://example.com/event")).1,
   (c1_amended (str "https://example.com/event")).2
     { scheme := str "https", host := str "example.com", port := none,
       pathname := str "/event", suffix := [] } rfl⟩

